import Mathlib

/-!
Shallow embedding of the `pris` MPRIS client library
(`src/player.rs`, `src/event_manager.rs`) and verification of its
specification.

The shared D-Bus connection (`dbus::nonblock::SyncConnection`) is external
to the repository; we embed it as an explicit state value (`ConnState`)
threaded through every operation, together with an oracle (`DBusEnv`)
deciding which remote interactions fail.  Async methods become plain
state-passing functions: each `.await` point is a synchronous step here,
which is faithful because the library issues its remote calls one at a
time and has no internal concurrency.
-/

namespace Pris

/-- Errors surfaced by the D-Bus connection layer (external `dbus` crate). -/
inductive DBusError
  /-- Any transport-level failure of a remote interaction. -/
  | transport
  /-- `remove_match` called with a token that has no active registration. -/
  | noMatchFound
  /-- A malformed member name or object path was given to a constructor. -/
  | invalidArg
deriving DecidableEq, Repr

/-- Errors of the library's own `Result` type (`Box<dyn Error>` in Rust):
either a plain message (`Box::from("...")`) or a propagated D-Bus error. -/
inductive PrisError
  | msg (s : String)
  | dbus (e : DBusError)
deriving DecidableEq, Repr

/-- A registration token handed out by the connection for a signal-match
filter (`dbus::channel::Token`). -/
abbrev Token := Nat

/-- A signal-match filter (`dbus::message::MatchRule`): only the fields the
library sets are modelled. -/
structure MatchRule where
  member : Option String
  path : Option String
deriving DecidableEq, Repr

/-- `MatchRule::new()`: a rule with no constraints. -/
def MatchRule.new : MatchRule := { member := none, path := none }

/-- A remote method invocation as it appears on the wire: destination bus
name, object path, member name and (integer) arguments. -/
structure RemoteCall where
  dest : String
  path : String
  member : String
  args : List Int
deriving DecidableEq, Repr

/-- Oracle deciding the outcome of every external interaction: which
`add_match` / `remove_match` / method calls fail, and which player names
the bus considers valid. -/
structure DBusEnv where
  /-- Whether the n-th `add_match` request on the connection fails. -/
  addMatchFails : Nat → Bool
  /-- Whether removing the given token fails at the transport layer. -/
  removeMatchFails : Token → Bool
  /-- Whether the n-th remote method call issued on the connection fails. -/
  callFails : Nat → Bool
  /-- Which names resolve to a live, protocol-conformant player. -/
  validNames : String → Bool
  /-- Whether the existence/conformance check itself fails for a name. -/
  validateFails : String → Bool

/-- State of the shared connection: the active filter registrations
(token/rule pairs, a map keyed by unique tokens), the next fresh token,
and traces of every request issued through the connection. -/
structure ConnState where
  /-- Currently active filter registrations. -/
  registered : List (Token × MatchRule)
  /-- Next token to hand out. -/
  nextToken : Token
  /-- How many `add_match` requests have been issued so far. -/
  addMatchCount : Nat
  /-- Trace of the rules of all `add_match` requests issued. -/
  addRequests : List MatchRule
  /-- Trace of the tokens of all `remove_match` requests issued. -/
  removeRequests : List Token
  /-- Trace of all remote method calls issued. -/
  calls : List RemoteCall
deriving Repr

/-- A fresh connection with no registrations and empty traces. -/
def ConnState.init : ConnState :=
  { registered := [], nextToken := 0, addMatchCount := 0,
    addRequests := [], removeRequests := [], calls := [] }

/-- The token part of the registration map. -/
def ConnState.tokens (c : ConnState) : List Token :=
  c.registered.map Prod.fst

/-- `SyncConnection::add_match(rule)` (external `dbus` crate): issues a
registration request; on success activates the filter under a fresh token
and returns it, on failure leaves the registrations unchanged. -/
def ConnState.addMatch (env : DBusEnv) (c : ConnState) (rule : MatchRule) :
    Except DBusError Token × ConnState :=
  let c1 := { c with addMatchCount := c.addMatchCount + 1,
                     addRequests := c.addRequests ++ [rule] }
  if env.addMatchFails c.addMatchCount then
    (.error .transport, c1)
  else
    (.ok c.nextToken,
     { c1 with registered := c1.registered ++ [(c.nextToken, rule)],
               nextToken := c.nextToken + 1 })

/-- `SyncConnection::remove_match(token)` (external `dbus` crate): issues a
removal request; errors when the token has no active registration, may
fail at the transport layer, and otherwise removes the registration. -/
def ConnState.removeMatch (env : DBusEnv) (c : ConnState) (t : Token) :
    Except DBusError Unit × ConnState :=
  let c1 := { c with removeRequests := c.removeRequests ++ [t] }
  if t ∈ c.registered.map Prod.fst then
    if env.removeMatchFails t then
      (.error .transport, c1)
    else
      (.ok (), { c1 with registered := c1.registered.filter (fun e => e.1 != t) })
  else
    (.error .noMatchFound, c1)

/-- `Member::new(s)` (external `dbus` crate): validates a signal member
name; the fixed strings used by this library always pass. -/
def Member.new (s : String) : Except DBusError String :=
  if s.isEmpty then .error .invalidArg else .ok s

/-- `Path::new(s)` (external `dbus` crate): validates an object path; the
fixed path used by this library always passes. -/
def Path.new (s : String) : Except DBusError String :=
  if s.isEmpty || s.front != '/' then .error .invalidArg else .ok s

/-- `EventType` (src/event_manager.rs): which MPRIS event to listen for. -/
inductive EventType
  | PropertiesChanged
  | Seeked
deriving DecidableEq, Repr

/-- `MsgMatch` (external `dbus` crate): the handle returned by a
successful registration; only its token is relevant here (`.cb` attaches
the callback and preserves the token). -/
structure MsgMatch where
  token : Token
deriving DecidableEq, Repr

/-- `EventManager` (src/event_manager.rs): the recorded registration
tokens.  The `conn` field is the shared connection, passed explicitly as
`ConnState` to each operation. -/
structure EventManager where
  callback_tokens : List Token
deriving DecidableEq, Repr

/-- `EventManager::new` (src/event_manager.rs): empty token collection. -/
def EventManager.new : EventManager :=
  { callback_tokens := [] }

/-- The `MatchRule` built by `EventManager::add_callback`
(src/event_manager.rs lines 70-75): member from the event type, path fixed
to the MPRIS player object path; `?` propagates constructor errors. -/
def makeRule (event_type : EventType) : Except DBusError MatchRule := do
  let member ← Member.new (match event_type with
    | .PropertiesChanged => "PropertiesChanged"
    | .Seeked => "Seeked")
  let path ← Path.new "/org/mpris/MediaPlayer2"
  pure { MatchRule.new with member := some member, path := some path }

/-- `EventManager::add_callback` (src/event_manager.rs): builds the rule,
registers it on the connection, and on success pushes the returned token
onto `callback_tokens` and returns the `MsgMatch` handle.  The callback
closure itself has no effect on the bookkeeping and is omitted. -/
def EventManager.add_callback (env : DBusEnv) (em : EventManager)
    (event_type : EventType) (c : ConnState) :
    Except DBusError MsgMatch × EventManager × ConnState :=
  match makeRule event_type with
  | .error e => (.error e, em, c)
  | .ok rule =>
    match ConnState.addMatch env c rule with
    | (.error e, c1) => (.error e, em, c1)
    | (.ok tok, c1) =>
      (.ok { token := tok },
       { em with callback_tokens := em.callback_tokens ++ [tok] }, c1)

/-- The `for token in &self.callback_tokens { self.conn.remove_match(*token).await?; }`
loop of `EventManager::clear_callbacks`: stops at the first failing
removal. -/
def clearLoop (env : DBusEnv) (c : ConnState) : List Token → Except DBusError Unit × ConnState
  | [] => (.ok (), c)
  | t :: ts =>
    match ConnState.removeMatch env c t with
    | (.ok _, c1) => clearLoop env c1 ts
    | (.error e, c1) => (.error e, c1)

/-- `EventManager::clear_callbacks` (src/event_manager.rs lines 89-95):
iterates the recorded tokens issuing removals, propagating the first
failure; the token collection itself is never modified (the method has
`&mut self` but only reads `callback_tokens`, so the returned manager is
the input one). -/
def EventManager.clear_callbacks (env : DBusEnv) (em : EventManager) (c : ConnState) :
    Except DBusError Unit × EventManager × ConnState :=
  let r := clearLoop env c em.callback_tokens
  (r.1, em, r.2)

/-- `Player` (src/player.rs): the player's short bus name.  The `conn`
field is the shared connection, passed explicitly as `ConnState`. -/
structure Player where
  name : String
deriving DecidableEq, Repr

/-- Modelled from the spec: `util::validate` (module `util` of this
repository, not under src/) is the "external existence/conformance check"
of §4.2 that decides whether a name "corresponds to a live,
protocol-conformant player on the bus"; per the §8 scenario for an
invalid name ("no remote calls issued") it issues no remote call
attributable to the `Player`, so it consults the oracle without touching
the connection state.  Its `Result<bool>` return (the `?` in `try_new`)
means the check itself may fail. -/
def util.validate (env : DBusEnv) (name : String) : Except DBusError Bool :=
  if env.validateFails name then .error .transport else .ok (env.validNames name)

/-- `Player::try_new` (src/player.rs lines 20-33): propagates a failure of
the validity check, rejects invalid names with the fixed message, and
otherwise returns the constructed handle.  The connection state is
returned unchanged so that the trace of issued remote calls is
observable. -/
def Player.try_new (env : DBusEnv) (name : String) (c : ConnState) :
    Except PrisError Player × ConnState :=
  match util.validate env name with
  | .error e => (.error (.dbus e), c)
  | .ok false => (.error (.msg "The provided player was invalid."), c)
  | .ok true => (.ok { name := name }, c)

/-- `Proxy` (external `dbus` crate): destination bus name, object path and
call timeout in milliseconds. -/
structure Proxy where
  destination : String
  path : String
  timeout_ms : Nat
deriving DecidableEq, Repr

/-- `Proxy::new` (external `dbus` crate): an infallible constructor. -/
def Proxy.new (destination path : String) (timeout_ms : Nat) : Proxy :=
  { destination := destination, path := path, timeout_ms := timeout_ms }

/-- `Player::get_proxy` (src/player.rs lines 36-45): wraps the infallibly
constructed proxy for `org.mpris.MediaPlayer2.<name>` at the fixed object
path in `Ok`. -/
def Player.get_proxy (p : Player) : Except PrisError Proxy :=
  .ok (Proxy.new ("org.mpris.MediaPlayer2." ++ p.name) "/org/mpris/MediaPlayer2" 5000)

/-- Modelled from the spec: a remote method invocation through a player's
proxy (module `methods` of this repository, not under src/).  Per §4.2
each control "issues exactly one remote invocation of the correspondingly
named MPRIS player method"; the call is recorded on the trace and its
outcome is decided by the oracle. -/
def methods.callRemote (env : DBusEnv) (p : Player) (member : String)
    (args : List Int) (c : ConnState) : Except DBusError Unit × ConnState :=
  let n := c.calls.length
  let c1 := { c with calls := c.calls ++
    [{ dest := "org.mpris.MediaPlayer2." ++ p.name,
       path := "/org/mpris/MediaPlayer2", member := member, args := args }] }
  if env.callFails n then (.error .transport, c1) else (.ok (), c1)

/-- Modelled from the spec: `methods::next` issues one `Next` call with no
arguments (§6, §8). -/
def methods.next (env : DBusEnv) (p : Player) (c : ConnState) :
    Except DBusError Unit × ConnState :=
  methods.callRemote env p "Next" [] c

/-- Modelled from the spec: `methods::previous` issues one `Previous` call
with no arguments (§6, §8). -/
def methods.previous (env : DBusEnv) (p : Player) (c : ConnState) :
    Except DBusError Unit × ConnState :=
  methods.callRemote env p "Previous" [] c

/-- Modelled from the spec: `methods::pause` issues one `Pause` call with
no arguments (§6, §8). -/
def methods.pause (env : DBusEnv) (p : Player) (c : ConnState) :
    Except DBusError Unit × ConnState :=
  methods.callRemote env p "Pause" [] c

/-- Modelled from the spec: `methods::play` issues one `Play` call with no
arguments (§6, §8). -/
def methods.play (env : DBusEnv) (p : Player) (c : ConnState) :
    Except DBusError Unit × ConnState :=
  methods.callRemote env p "Play" [] c

/-- Modelled from the spec: `methods::play_pause` issues one `PlayPause`
call with no arguments (§6, §8). -/
def methods.play_pause (env : DBusEnv) (p : Player) (c : ConnState) :
    Except DBusError Unit × ConnState :=
  methods.callRemote env p "PlayPause" [] c

/-- Modelled from the spec: `methods::stop` issues one `Stop` call with no
arguments (§6, §8). -/
def methods.stop (env : DBusEnv) (p : Player) (c : ConnState) :
    Except DBusError Unit × ConnState :=
  methods.callRemote env p "Stop" [] c

/-- A `Duration` (Rust `std::time::Duration`), reduced to its microsecond
content: the spec maps a seek duration to "a single signed-microsecond
offset argument" (§4.2), so only the microsecond value matters here. -/
structure Duration where
  micros : Nat
deriving DecidableEq, Repr

/-- Modelled from the spec: `methods::seek` issues one `Seek` call whose
single argument is the offset in signed microseconds (§4.2, §6). -/
def methods.seek (env : DBusEnv) (p : Player) (offset : Duration) (c : ConnState) :
    Except DBusError Unit × ConnState :=
  methods.callRemote env p "Seek" [Int.ofNat offset.micros] c

/-- Modelled from the spec: `methods::seek_reverse` "negates the value
before sending" and issues one `Seek` call with the negated
signed-microsecond offset (§4.2). -/
def methods.seek_reverse (env : DBusEnv) (p : Player) (offset : Duration) (c : ConnState) :
    Except DBusError Unit × ConnState :=
  methods.callRemote env p "Seek" [-(Int.ofNat offset.micros)] c

/-- Outcome of a Rust expression that either evaluates normally or panics
(`unwrap` on an `Err`): `ok` is a normal return, `panicked` carries the
error the panic reported. -/
inductive UnwrapOutcome (α : Type)
  | ok (a : α)
  | panicked (e : DBusError)
deriving DecidableEq, Repr

/-- Rust's `Result::unwrap()`: the value on `Ok`, a panic on `Err`. -/
def unwrap {α : Type} : Except DBusError α → UnwrapOutcome α
  | .ok a => .ok a
  | .error e => .panicked e

/-- `Player::next` (src/player.rs): `methods::next(self).await.unwrap()`. -/
def Player.next (env : DBusEnv) (p : Player) (c : ConnState) :
    UnwrapOutcome Unit × ConnState :=
  let r := methods.next env p c
  (unwrap r.1, r.2)

/-- `Player::previous` (src/player.rs): `methods::previous(self).await.unwrap()`. -/
def Player.previous (env : DBusEnv) (p : Player) (c : ConnState) :
    UnwrapOutcome Unit × ConnState :=
  let r := methods.previous env p c
  (unwrap r.1, r.2)

/-- `Player::pause` (src/player.rs): `methods::pause(self).await.unwrap()`. -/
def Player.pause (env : DBusEnv) (p : Player) (c : ConnState) :
    UnwrapOutcome Unit × ConnState :=
  let r := methods.pause env p c
  (unwrap r.1, r.2)

/-- `Player::play` (src/player.rs): `methods::play(self).await.unwrap()`. -/
def Player.play (env : DBusEnv) (p : Player) (c : ConnState) :
    UnwrapOutcome Unit × ConnState :=
  let r := methods.play env p c
  (unwrap r.1, r.2)

/-- `Player::play_pause` (src/player.rs): `methods::play_pause(self).await.unwrap()`. -/
def Player.play_pause (env : DBusEnv) (p : Player) (c : ConnState) :
    UnwrapOutcome Unit × ConnState :=
  let r := methods.play_pause env p c
  (unwrap r.1, r.2)

/-- `Player::stop` (src/player.rs): `methods::stop(self).await.unwrap()`. -/
def Player.stop (env : DBusEnv) (p : Player) (c : ConnState) :
    UnwrapOutcome Unit × ConnState :=
  let r := methods.stop env p c
  (unwrap r.1, r.2)

/-- `Player::seek` (src/player.rs): `Ok(methods::seek(self, offset).await?)`,
propagating the inner result. -/
def Player.seek (env : DBusEnv) (p : Player) (offset : Duration) (c : ConnState) :
    Except PrisError Unit × ConnState :=
  match methods.seek env p offset c with
  | (.ok u, c1) => (.ok u, c1)
  | (.error e, c1) => (.error (.dbus e), c1)

/-- `Player::seek_reverse` (src/player.rs):
`Ok(methods::seek_reverse(self, offset).await?)`, propagating the inner
result. -/
def Player.seek_reverse (env : DBusEnv) (p : Player) (offset : Duration) (c : ConnState) :
    Except PrisError Unit × ConnState :=
  match methods.seek_reverse env p offset c with
  | (.ok u, c1) => (.ok u, c1)
  | (.error e, c1) => (.error (.dbus e), c1)

/-- Running a sequence of `add_callback` registrations (one per event
type in the list) from a given manager/connection state, keeping the
state reached whether each registration succeeds or fails. -/
def runAdds (env : DBusEnv) : List EventType → EventManager × ConnState → EventManager × ConnState
  | [], s => s
  | et :: ets, s =>
    let r := EventManager.add_callback env s.1 et s.2
    runAdds env ets (r.2.1, r.2.2)

/-- An environment in which no external interaction fails and every name
is valid: used to exercise the operations on concrete inputs. -/
def envOK : DBusEnv :=
  { addMatchFails := fun _ => false, removeMatchFails := fun _ => false,
    callFails := fun _ => false, validNames := fun _ => true,
    validateFails := fun _ => false }

/-- An environment in which every remote method call fails. -/
def envCallsFail : DBusEnv :=
  { envOK with callFails := fun _ => true }

/-- An environment in which removing token 1 fails at the transport layer. -/
def envFail1 : DBusEnv :=
  { envOK with removeMatchFails := fun t => t == 1 }

/-- An environment in which no name resolves to a valid player. -/
def envInvalid : DBusEnv :=
  { envOK with validNames := fun _ => false }

lemma mem_keys_filter {l : List (Token × MatchRule)} {u t : Token} (h : u ≠ t) :
    u ∈ (l.filter (fun e => e.1 != t)).map Prod.fst ↔ u ∈ l.map Prod.fst := by
  simp only [List.mem_map, List.mem_filter, bne_iff_ne]
  constructor
  · rintro ⟨e, ⟨he, _⟩, rfl⟩
    exact ⟨e, he, rfl⟩
  · rintro ⟨e, he, rfl⟩
    exact ⟨e, ⟨he, h⟩, rfl⟩

lemma not_mem_keys_filter_self (l : List (Token × MatchRule)) (t : Token) :
    t ∉ (l.filter (fun e => e.1 != t)).map Prod.fst := by
  simp only [List.mem_map, List.mem_filter, bne_iff_ne]
  rintro ⟨e, ⟨_, hne⟩, rfl⟩
  exact hne rfl

lemma removeMatch_ok_eq {env : DBusEnv} {c : ConnState} {t : Token}
    (h1 : t ∈ c.registered.map Prod.fst) (h2 : env.removeMatchFails t = false) :
    ConnState.removeMatch env c t =
      (.ok (), { c with removeRequests := c.removeRequests ++ [t],
                        registered := c.registered.filter (fun e => e.1 != t) }) := by
  simp [ConnState.removeMatch, h1, h2]

lemma removeMatch_fails_eq {env : DBusEnv} {c : ConnState} {t : Token}
    (h : env.removeMatchFails t = true) :
    ∃ e, ConnState.removeMatch env c t =
      (.error e, { c with removeRequests := c.removeRequests ++ [t] }) := by
  by_cases h1 : t ∈ c.registered.map Prod.fst
  · exact ⟨.transport, by simp [ConnState.removeMatch, h1, h]⟩
  · exact ⟨.noMatchFound, by simp [ConnState.removeMatch, h1]⟩

lemma removeMatch_not_mem_eq {env : DBusEnv} {c : ConnState} {t : Token}
    (h : t ∉ c.registered.map Prod.fst) :
    ConnState.removeMatch env c t =
      (.error .noMatchFound, { c with removeRequests := c.removeRequests ++ [t] }) := by
  simp [ConnState.removeMatch, h]

lemma addMatch_ok_eq {env : DBusEnv} {c : ConnState} {rule : MatchRule}
    (h : env.addMatchFails c.addMatchCount = false) :
    ConnState.addMatch env c rule =
      (.ok c.nextToken,
       { c with addMatchCount := c.addMatchCount + 1,
                addRequests := c.addRequests ++ [rule],
                registered := c.registered ++ [(c.nextToken, rule)],
                nextToken := c.nextToken + 1 }) := by
  simp [ConnState.addMatch, h]

lemma addMatch_fail_eq {env : DBusEnv} {c : ConnState} {rule : MatchRule}
    (h : env.addMatchFails c.addMatchCount = true) :
    ConnState.addMatch env c rule =
      (.error .transport,
       { c with addMatchCount := c.addMatchCount + 1,
                addRequests := c.addRequests ++ [rule] }) := by
  simp [ConnState.addMatch, h]

/-- The member string selected by `add_callback` for each event type. -/
def memberName : EventType → String
  | .PropertiesChanged => "PropertiesChanged"
  | .Seeked => "Seeked"

lemma makeRule_eq (et : EventType) :
    makeRule et =
      .ok { member := some (memberName et),
            path := some "/org/mpris/MediaPlayer2" } := by
  cases et <;> rfl

lemma clearLoop_registered_sub (env : DBusEnv) (ts : List Token) :
    ∀ (c : ConnState) (u : Token),
      u ∈ (clearLoop env c ts).2.registered.map Prod.fst →
      u ∈ c.registered.map Prod.fst := by
  induction ts with
  | nil =>
    intro c u h
    simpa [clearLoop] using h
  | cons t ts ih =>
    intro c u h
    by_cases h1 : t ∈ c.registered.map Prod.fst
    · by_cases h2 : env.removeMatchFails t
      · obtain ⟨e, he⟩ := removeMatch_fails_eq (c := c) (t := t) h2
        simp only [clearLoop, he] at h
        exact h
      · have hf : env.removeMatchFails t = false := by simpa using h2
        simp only [clearLoop, removeMatch_ok_eq h1 hf] at h
        have h3 := ih _ u h
        rcases List.mem_map.1 h3 with ⟨e, he, rfl⟩
        exact List.mem_map.2 ⟨e, List.mem_of_mem_filter he, rfl⟩
    · simp only [clearLoop, removeMatch_not_mem_eq h1] at h
      exact h

lemma clearLoop_ok_removed (env : DBusEnv) (ts : List Token) :
    ∀ c : ConnState, (clearLoop env c ts).1 = .ok () →
      ∀ t ∈ ts, t ∉ (clearLoop env c ts).2.registered.map Prod.fst := by
  induction ts with
  | nil =>
    intro c _ t ht
    cases ht
  | cons t ts ih =>
    intro c hok u hu
    by_cases h1 : t ∈ c.registered.map Prod.fst
    · by_cases h2 : env.removeMatchFails t
      · obtain ⟨e, he⟩ := removeMatch_fails_eq (c := c) (t := t) h2
        simp only [clearLoop, he] at hok
        cases hok
      · have hf : env.removeMatchFails t = false := by simpa using h2
        simp only [clearLoop, removeMatch_ok_eq h1 hf] at hok ⊢
        rcases List.mem_cons.1 hu with rfl | hu'
        · intro hmem
          have h3 := clearLoop_registered_sub env ts _ u hmem
          exact not_mem_keys_filter_self c.registered u h3
        · exact ih _ hok u hu'
    · simp only [clearLoop, removeMatch_not_mem_eq h1] at hok
      cases hok

lemma clearLoop_ok_char (env : DBusEnv) (ts : List Token) :
    ∀ c : ConnState, ts.Nodup →
      (∀ t ∈ ts, env.removeMatchFails t = false ∧ t ∈ c.registered.map Prod.fst) →
      (clearLoop env c ts).1 = .ok () ∧
      (clearLoop env c ts).2.removeRequests = c.removeRequests ++ ts := by
  induction ts with
  | nil =>
    intro c _ _
    exact ⟨rfl, by simp [clearLoop]⟩
  | cons t ts ih =>
    intro c hnd hall
    obtain ⟨hf, hmem⟩ := hall t (List.mem_cons_self t ts)
    have htnin : t ∉ ts := (List.nodup_cons.1 hnd).1
    have hnd' : ts.Nodup := (List.nodup_cons.1 hnd).2
    simp only [clearLoop, removeMatch_ok_eq hmem hf]
    have hall' : ∀ u ∈ ts, env.removeMatchFails u = false ∧
        u ∈ (c.registered.filter (fun e => e.1 != t)).map Prod.fst := by
      intro u hu
      obtain ⟨hu1, hu2⟩ := hall u (List.mem_cons_of_mem _ hu)
      have hne : u ≠ t := fun h => htnin (h ▸ hu)
      exact ⟨hu1, (mem_keys_filter hne).2 hu2⟩
    obtain ⟨ih1, ih2⟩ :=
      ih { c with removeRequests := c.removeRequests ++ [t], registered := c.registered.filter (fun e => e.1 != t) } hnd' hall'
    refine ⟨ih1, ?_⟩
    rw [ih2]
    simp

lemma clearLoop_failfast (env : DBusEnv) (t : Token) (post : List Token) (pre : List Token) :
    ∀ c : ConnState, pre.Nodup →
      (∀ u ∈ pre, env.removeMatchFails u = false ∧ u ∈ c.registered.map Prod.fst) →
      env.removeMatchFails t = true →
      (∃ e, (clearLoop env c (pre ++ t :: post)).1 = .error e) ∧
      (clearLoop env c (pre ++ t :: post)).2.removeRequests
        = c.removeRequests ++ pre ++ [t] := by
  induction pre with
  | nil =>
    intro c _ _ hft
    obtain ⟨e, he⟩ := removeMatch_fails_eq (c := c) (t := t) hft
    refine ⟨⟨e, ?_⟩, ?_⟩ <;> simp [clearLoop, he]
  | cons u pre ih =>
    intro c hnd hall hft
    obtain ⟨hf, hmem⟩ := hall u (List.mem_cons_self u pre)
    have hunin : u ∉ pre := (List.nodup_cons.1 hnd).1
    have hnd' : pre.Nodup := (List.nodup_cons.1 hnd).2
    simp only [List.cons_append, clearLoop, removeMatch_ok_eq hmem hf]
    have hall' : ∀ v ∈ pre, env.removeMatchFails v = false ∧
        v ∈ (c.registered.filter (fun e => e.1 != u)).map Prod.fst := by
      intro v hv
      obtain ⟨hv1, hv2⟩ := hall v (List.mem_cons_of_mem _ hv)
      have hne : v ≠ u := fun h => hunin (h ▸ hv)
      exact ⟨hv1, (mem_keys_filter hne).2 hv2⟩
    obtain ⟨ih1, ih2⟩ :=
      ih { c with removeRequests := c.removeRequests ++ [u], registered := c.registered.filter (fun e => e.1 != u) } hnd' hall' hft
    refine ⟨ih1, ?_⟩
    rw [show pre.append (t :: post) = pre ++ t :: post from rfl, ih2]
    simp

/-- The bookkeeping invariant tying an `EventManager` to the connection:
every recorded token is the key of exactly one active registration, and
all tokens (recorded or registered) are below the connection's fresh
token counter. -/
def Inv (em : EventManager) (c : ConnState) : Prop :=
  (∀ t ∈ em.callback_tokens, (c.registered.map Prod.fst).count t = 1) ∧
  (∀ t ∈ em.callback_tokens, t < c.nextToken) ∧
  ∀ e ∈ c.registered, e.1 < c.nextToken

lemma inv_init : Inv EventManager.new ConnState.init :=
  ⟨by simp [EventManager.new], by simp [EventManager.new], by simp [ConnState.init]⟩

lemma add_callback_inv (env : DBusEnv) (et : EventType) {em : EventManager} {c : ConnState}
    (h : Inv em c) :
    Inv (EventManager.add_callback env em et c).2.1
      (EventManager.add_callback env em et c).2.2 := by
  obtain ⟨h1, h2, h3⟩ := h
  by_cases hf : env.addMatchFails c.addMatchCount
  · simp only [EventManager.add_callback, makeRule_eq, addMatch_fail_eq hf]
    exact ⟨h1, h2, h3⟩
  · have hf' : env.addMatchFails c.addMatchCount = false := by simpa using hf
    simp only [EventManager.add_callback, makeRule_eq, addMatch_ok_eq hf']
    refine ⟨?_, ?_, ?_⟩
    · intro t ht
      rcases List.mem_append.1 ht with ht' | ht'
      · have hlt := h2 t ht'
        have hne : t ≠ c.nextToken := Nat.ne_of_lt hlt
        simp [List.map_append, List.count_append, List.count_cons, hne, h1 t ht']
      · have ht'' : t = c.nextToken := by simpa using ht'
        have hzero : (c.registered.map Prod.fst).count c.nextToken = 0 := by
          refine List.count_eq_zero.2 fun hmem => ?_
          rcases List.mem_map.1 hmem with ⟨e, he, hfst⟩
          exact absurd (hfst ▸ h3 e he) (lt_irrefl c.nextToken)
        rw [ht'']
        simp [List.map_append, List.count_append, List.count_cons, hzero]
    · intro t ht
      rcases List.mem_append.1 ht with ht' | ht'
      · exact Nat.lt_succ_of_lt (h2 t ht')
      · have ht'' : t = c.nextToken := by simpa using ht'
        subst ht''
        exact Nat.lt_succ_self _
    · intro e he
      rcases List.mem_append.1 he with he' | he'
      · exact Nat.lt_succ_of_lt (h3 e he')
      · have he'' := List.mem_singleton.1 he'
        subst he''
        exact Nat.lt_succ_self _

lemma clearLoop_first_not_mem (env : DBusEnv) (c1 : ConnState) (t : Token) (ts : List Token)
    (h : t ∉ c1.registered.map Prod.fst) :
    (clearLoop env c1 (t :: ts)).2.removeRequests = c1.removeRequests ++ [t] := by
  simp only [clearLoop, removeMatch_not_mem_eq h]

lemma runAdds_inv (env : DBusEnv) (ets : List EventType) :
    ∀ s : EventManager × ConnState, Inv s.1 s.2 →
      Inv (runAdds env ets s).1 (runAdds env ets s).2 := by
  induction ets with
  | nil => intro s h; exact h
  | cons et ets ih =>
    intro s h
    simp only [runAdds]
    exact ih _ (add_callback_inv env et h)

/-- A connection with one active registration, for token 0. -/
def connOneReg : ConnState :=
  { ConnState.init with registered := [(0, MatchRule.new)] }

/-- A connection with three active registrations, for tokens 0, 1, 2. -/
def connThreeReg : ConnState :=
  { ConnState.init with
    registered := [(0, MatchRule.new), (1, MatchRule.new), (2, MatchRule.new)] }

/-- Claim C1, counterexample: when the underlying remote call fails,
`Player::next` does not return normally — the `unwrap` panics — so the
failure is not discarded with a normal return to the caller. -/
theorem C1_counterexample :
    (Player.next envCallsFail { name := "vlc" } ConnState.init).1
      = UnwrapOutcome.panicked DBusError.transport := rfl

/-- Claim C1, amended: each of the six playback controls returns normally
exactly when the underlying remote call succeeds, and panics (via
`unwrap`) when it fails; in neither case is an error value returned
through the operation's interface. -/
theorem C1_amended_thm : ∀ env p c,
    ((Player.next env p c).1 = if env.callFails c.calls.length then
        UnwrapOutcome.panicked DBusError.transport else UnwrapOutcome.ok ()) ∧
    ((Player.previous env p c).1 = if env.callFails c.calls.length then
        UnwrapOutcome.panicked DBusError.transport else UnwrapOutcome.ok ()) ∧
    ((Player.pause env p c).1 = if env.callFails c.calls.length then
        UnwrapOutcome.panicked DBusError.transport else UnwrapOutcome.ok ()) ∧
    ((Player.play env p c).1 = if env.callFails c.calls.length then
        UnwrapOutcome.panicked DBusError.transport else UnwrapOutcome.ok ()) ∧
    ((Player.play_pause env p c).1 = if env.callFails c.calls.length then
        UnwrapOutcome.panicked DBusError.transport else UnwrapOutcome.ok ()) ∧
    ((Player.stop env p c).1 = if env.callFails c.calls.length then
        UnwrapOutcome.panicked DBusError.transport else UnwrapOutcome.ok ()) := by
  intro env p c
  cases hf : env.callFails c.calls.length <;>
    simp [Player.next, Player.previous, Player.pause, Player.play, Player.play_pause,
      Player.stop, methods.next, methods.previous, methods.pause, methods.play,
      methods.play_pause, methods.stop, methods.callRemote, unwrap, hf]

/-- Claim C2, counterexample: from a fresh manager, one successful
`add_callback` followed by a successful `clear_callbacks` leaves token 0
in the collection while zero registrations for it are active on the
connection, violating the claimed invariant after this sequence. -/
theorem C2_counterexample :
    (EventManager.clear_callbacks envOK
        (EventManager.add_callback envOK EventManager.new .Seeked ConnState.init).2.1
        (EventManager.add_callback envOK EventManager.new .Seeked ConnState.init).2.2).1
      = .ok () ∧
    (EventManager.clear_callbacks envOK
        (EventManager.add_callback envOK EventManager.new .Seeked ConnState.init).2.1
        (EventManager.add_callback envOK EventManager.new .Seeked ConnState.init).2.2).2.1.callback_tokens
      = [0] ∧
    ((EventManager.clear_callbacks envOK
        (EventManager.add_callback envOK EventManager.new .Seeked ConnState.init).2.1
        (EventManager.add_callback envOK EventManager.new .Seeked ConnState.init).2.2).2.2.registered.map
          Prod.fst).count 0 = 0 := by
  refine ⟨rfl, rfl, rfl⟩

/-- Claim C2, amended: after any sequence of `add_callback` registrations
from a fresh manager, every recorded token corresponds to exactly one
active registration on the connection; and a successful `clear_callbacks`
leaves zero active registrations for the recorded tokens while not
emptying the token collection — so the one-to-one correspondence no
longer holds afterward. -/
theorem C2_amended_thm :
    (∀ env ets t, t ∈ (runAdds env ets (EventManager.new, ConnState.init)).1.callback_tokens →
       ((runAdds env ets (EventManager.new, ConnState.init)).2.registered.map Prod.fst).count t
         = 1) ∧
    (∀ env em c, (EventManager.clear_callbacks env em c).1 = .ok () →
       (EventManager.clear_callbacks env em c).2.1 = em ∧
       ∀ t ∈ em.callback_tokens,
         t ∉ (EventManager.clear_callbacks env em c).2.2.registered.map Prod.fst) := by
  constructor
  · intro env ets t ht
    exact (runAdds_inv env ets (EventManager.new, ConnState.init) inv_init).1 t ht
  · intro env em c hok
    exact ⟨rfl, clearLoop_ok_removed env em.callback_tokens c hok⟩

/-- Claim C2, witness: after one registration, token 0 has exactly one
active registration; after a successful clear from a one-token manager,
token 0 has no active registration. -/
theorem C2_witness :
    ((runAdds envOK [EventType.Seeked] (EventManager.new, ConnState.init)).2.registered.map
        Prod.fst).count 0 = 1 ∧
    0 ∉ (EventManager.clear_callbacks envOK ⟨[0]⟩ connOneReg).2.2.registered.map Prod.fst :=
  ⟨C2_amended_thm.1 envOK [EventType.Seeked] 0 (by decide),
   (C2_amended_thm.2 envOK ⟨[0]⟩ connOneReg rfl).2 0 (by decide)⟩

/-- Claim C3: with no failures `clear_callbacks` succeeds and issues
exactly one removal request per recorded token; when the removal of a
token fails, it reports that failure and the requests issued stop at the
failing token — none are issued for the remaining tokens. -/
theorem C3_thm :
    (∀ env em c, em.callback_tokens.Nodup →
       (∀ t ∈ em.callback_tokens, env.removeMatchFails t = false ∧
          t ∈ c.registered.map Prod.fst) →
       (EventManager.clear_callbacks env em c).1 = .ok () ∧
       (EventManager.clear_callbacks env em c).2.2.removeRequests
         = c.removeRequests ++ em.callback_tokens) ∧
    (∀ env em c pre t post, em.callback_tokens = pre ++ t :: post →
       pre.Nodup →
       (∀ u ∈ pre, env.removeMatchFails u = false ∧ u ∈ c.registered.map Prod.fst) →
       env.removeMatchFails t = true →
       (∃ e, (EventManager.clear_callbacks env em c).1 = .error e) ∧
       (EventManager.clear_callbacks env em c).2.2.removeRequests
         = c.removeRequests ++ pre ++ [t]) := by
  constructor
  · intro env em c hnd hall
    exact clearLoop_ok_char env em.callback_tokens c hnd hall
  · intro env em c pre t post heq hnd hall hft
    obtain ⟨⟨e, he⟩, hreq⟩ := clearLoop_failfast env t post pre c hnd hall hft
    simp only [EventManager.clear_callbacks, heq]
    exact ⟨⟨e, he⟩, hreq⟩

/-- Claim C3, witness: a one-token manager under no failures issues
exactly its one removal request and succeeds; a three-token manager whose
second token's removal fails issues requests for exactly the first two
tokens. -/
theorem C3_witness :
    ((EventManager.clear_callbacks envOK ⟨[0]⟩ connOneReg).1 = .ok () ∧
     (EventManager.clear_callbacks envOK ⟨[0]⟩ connOneReg).2.2.removeRequests
       = connOneReg.removeRequests ++ [0]) ∧
    (EventManager.clear_callbacks envFail1 ⟨[0, 1, 2]⟩ connThreeReg).2.2.removeRequests
      = connThreeReg.removeRequests ++ [0] ++ [1] :=
  ⟨C3_thm.1 envOK ⟨[0]⟩ connOneReg (by decide) (by decide),
   (C3_thm.2 envFail1 ⟨[0, 1, 2]⟩ connThreeReg [0] 1 [2] rfl (by decide) (by decide)
     (by decide)).2⟩

/-- Claim C4: a manager is created with an empty token collection; a
successful `add_callback` appends exactly the returned handle's token to
the collection, and a failed one leaves the collection unchanged. -/
theorem C4_thm :
    EventManager.new.callback_tokens = [] ∧
    ∀ env em (et : EventType) c,
      (EventManager.add_callback env em et c).2.1.callback_tokens =
        match (EventManager.add_callback env em et c).1 with
        | .ok m => em.callback_tokens ++ [m.token]
        | .error _ => em.callback_tokens := by
  refine ⟨rfl, ?_⟩
  intro env em et c
  by_cases hf : env.addMatchFails c.addMatchCount
  · simp only [EventManager.add_callback, makeRule_eq, addMatch_fail_eq hf]
  · have hf' : env.addMatchFails c.addMatchCount = false := by simpa using hf
    simp only [EventManager.add_callback, makeRule_eq, addMatch_ok_eq hf']

/-- Claim C5: every `add_callback` issues exactly one filter-registration
request, whose member is exactly "PropertiesChanged" for
`EventType::PropertiesChanged` and exactly "Seeked" for `EventType::Seeked`,
and whose path is exactly "/org/mpris/MediaPlayer2". -/
theorem C5_thm :
    (∀ env em c,
       (EventManager.add_callback env em .PropertiesChanged c).2.2.addRequests =
         c.addRequests ++
           [{ member := some "PropertiesChanged", path := some "/org/mpris/MediaPlayer2" }]) ∧
    (∀ env em c,
       (EventManager.add_callback env em .Seeked c).2.2.addRequests =
         c.addRequests ++
           [{ member := some "Seeked", path := some "/org/mpris/MediaPlayer2" }]) := by
  constructor <;>
    (intro env em c
     by_cases hf : env.addMatchFails c.addMatchCount
     · simp [EventManager.add_callback, makeRule_eq, memberName, addMatch_fail_eq hf]
     · have hf' : env.addMatchFails c.addMatchCount = false := by simpa using hf
       simp [EventManager.add_callback, makeRule_eq, memberName, addMatch_ok_eq hf'])

/-- Claim C6: when the existence check runs and reports the name invalid,
`try_new` fails with the invalidity error; and whenever the name is not
valid, `try_new` never returns a `Player` handle. -/
theorem C6_thm :
    (∀ env name c, env.validateFails name = false → env.validNames name = false →
       (Player.try_new env name c).1
         = .error (.msg "The provided player was invalid.")) ∧
    (∀ env name c p, env.validNames name = false →
       (Player.try_new env name c).1 ≠ .ok p) := by
  constructor
  · intro env name c h1 h2
    simp [Player.try_new, util.validate, h1, h2]
  · intro env name c p h2
    by_cases h1 : env.validateFails name
    · have hval : (Player.try_new env name c).1 = .error (.dbus .transport) := by
        simp [Player.try_new, util.validate, h1]
      rw [hval]
      exact fun h => Except.noConfusion h
    · have h1' : env.validateFails name = false := by simpa using h1
      have hval : (Player.try_new env name c).1
          = .error (.msg "The provided player was invalid.") := by
        simp [Player.try_new, util.validate, h1', h2]
      rw [hval]
      exact fun h => Except.noConfusion h

/-- Claim C6, witness: for an invalid name, `try_new` yields the
invalidity error and does not yield a handle. -/
theorem C6_witness :
    (Player.try_new envInvalid "foo" ConnState.init).1
      = .error (.msg "The provided player was invalid.") ∧
    (Player.try_new envInvalid "foo" ConnState.init).1 ≠ .ok { name := "foo" } :=
  ⟨C6_thm.1 envInvalid "foo" ConnState.init rfl rfl,
   C6_thm.2 envInvalid "foo" ConnState.init { name := "foo" } rfl⟩

/-- Claim C7: for every duration, `seek` and `seek_reverse` each issue
exactly one remote `Seek` call, and the signed-microsecond argument sent
by `seek_reverse` is the negation of the one sent by `seek`. -/
theorem C7_thm : ∀ env p (d : Duration) c,
    (Player.seek env p d c).2.calls =
      c.calls ++ [{ dest := "org.mpris.MediaPlayer2." ++ p.name,
                    path := "/org/mpris/MediaPlayer2", member := "Seek",
                    args := [Int.ofNat d.micros] }] ∧
    (Player.seek_reverse env p d c).2.calls =
      c.calls ++ [{ dest := "org.mpris.MediaPlayer2." ++ p.name,
                    path := "/org/mpris/MediaPlayer2", member := "Seek",
                    args := [-(Int.ofNat d.micros)] }] := by
  intro env p d c
  cases hf : env.callFails c.calls.length <;>
    constructor <;>
      simp [Player.seek, Player.seek_reverse, methods.seek, methods.seek_reverse,
        methods.callRemote, hf]

/-- Claim C8: `try_new` on a non-existent name returns the invalidity
error with the connection state — in particular the trace of issued
remote calls — unchanged. -/
theorem C8_thm : ∀ env name c,
    env.validateFails name = false → env.validNames name = false →
    Player.try_new env name c
      = (.error (.msg "The provided player was invalid."), c) ∧
    (Player.try_new env name c).2.calls = c.calls := by
  intro env name c h1 h2
  constructor <;> simp [Player.try_new, util.validate, h1, h2]

/-- Claim C8, witness: a concrete invalid name yields the invalidity error
and leaves the call trace empty. -/
theorem C8_witness :
    Player.try_new envInvalid "spotify" ConnState.init
      = (.error (.msg "The provided player was invalid."), ConnState.init) ∧
    (Player.try_new envInvalid "spotify" ConnState.init).2.calls = ConnState.init.calls :=
  C8_thm envInvalid "spotify" ConnState.init rfl rfl

/-- Claim C9: a successful `clear_callbacks` returns the manager with its
token collection untouched, and a second `clear_callbacks` issues a
further nonempty batch of removal requests, each targeting a recorded
token whose registration was already removed — so `clear_callbacks` is
not idempotent with respect to removal requests issued. -/
theorem C9_thm : ∀ env em c, em.callback_tokens ≠ [] → em.callback_tokens.Nodup →
    (∀ t ∈ em.callback_tokens, env.removeMatchFails t = false ∧
       t ∈ c.registered.map Prod.fst) →
    (EventManager.clear_callbacks env em c).1 = .ok () ∧
    (EventManager.clear_callbacks env em c).2.1 = em ∧
    ∃ reqs, reqs ≠ [] ∧
      (EventManager.clear_callbacks env em
          ((EventManager.clear_callbacks env em c).2.2)).2.2.removeRequests
        = (EventManager.clear_callbacks env em c).2.2.removeRequests ++ reqs ∧
      ∀ t ∈ reqs, t ∈ em.callback_tokens ∧
        t ∉ (EventManager.clear_callbacks env em c).2.2.registered.map Prod.fst := by
  intro env em c hne hnd hall
  obtain ⟨hok, hreq⟩ := clearLoop_ok_char env em.callback_tokens c hnd hall
  obtain ⟨t, ts, htl⟩ : ∃ t ts, em.callback_tokens = t :: ts := by
    cases h : em.callback_tokens with
    | nil => exact absurd h hne
    | cons a as => exact ⟨a, as, rfl⟩
  have ht_mem : t ∈ em.callback_tokens := by
    rw [htl]
    exact List.mem_cons_self t ts
  have htnot : t ∉ (clearLoop env c em.callback_tokens).2.registered.map Prod.fst :=
    clearLoop_ok_removed env em.callback_tokens c hok t ht_mem
  have htnot2 := htnot
  have hsecond :
      (EventManager.clear_callbacks env em
        ((EventManager.clear_callbacks env em c).2.2)).2.2.removeRequests
      = (EventManager.clear_callbacks env em c).2.2.removeRequests ++ [t] := by
    show (clearLoop env (clearLoop env c em.callback_tokens).2 em.callback_tokens).2.removeRequests
      = (clearLoop env c em.callback_tokens).2.removeRequests ++ [t]
    rw [htl] at htnot2 ⊢
    exact clearLoop_first_not_mem env _ t ts htnot2
  refine ⟨hok, rfl, [t], by simp, hsecond, ?_⟩
  intro u hu
  have hu' : u = t := List.mem_singleton.1 hu
  subst hu'
  exact ⟨ht_mem, htnot⟩

/-- Claim C9, witness: for a one-token manager with its token registered
and no failures, `clear_callbacks` succeeds and returns the manager still
holding its token. -/
theorem C9_witness :
    (EventManager.clear_callbacks envOK ⟨[0]⟩ connOneReg).1 = .ok () ∧
    (EventManager.clear_callbacks envOK ⟨[0]⟩ connOneReg).2.1
      = (⟨[0]⟩ : EventManager) := by
  have h := C9_thm envOK ⟨[0]⟩ connOneReg (by decide) (by decide) (by decide)
  exact ⟨h.1, h.2.1⟩

/-- Claim C10: `get_proxy` always returns a successfully constructed proxy
whose destination is "org.mpris.MediaPlayer2.<name>" and whose object path
is "/org/mpris/MediaPlayer2"; no `Player` makes it return an error. -/
theorem C10_thm : ∀ p : Player, ∃ pr : Proxy,
    Player.get_proxy p = .ok pr ∧
    pr.destination = "org.mpris.MediaPlayer2." ++ p.name ∧
    pr.path = "/org/mpris/MediaPlayer2" ∧
    pr.timeout_ms = 5000 := by
  intro p
  exact ⟨Proxy.new ("org.mpris.MediaPlayer2." ++ p.name) "/org/mpris/MediaPlayer2" 5000,
    rfl, rfl, rfl, rfl⟩

end Pris
